import Mathlib

/-!
Verification development for the REST API test-automation suite:
a shallow embedding of its API client (src/utils/apiClient.ts, both the
per-verb and the dispatcher variant), the sanitizing structured logger
(src/utils/logger.ts), the environment validation (src/utils/env.ts) and
the pagination generator (TestDataGenerator.generatePaginationData),
together with theorems settling the specification claims about them.

JavaScript strings are embedded as Lean strings; JSON-like dynamic values
as the inductive type Json below (JavaScript numbers restricted to
integers, which covers every value the claims mention); records
(JavaScript objects with string keys) as association lists in insertion
order, with the keys of any one object distinct, as they are in a
JavaScript object.
-/

/-- JSON-like dynamic value: the values the sanitizer walks and the
client sends and receives. -/
inductive Json : Type
  | null
  | bool (b : Bool)
  | num (n : Int)
  | str (s : String)
  | arr (elems : List Json)
  | obj (fields : List (String × Json))

/-- Truthiness of a Json value under JavaScript coercion rules:
null, false, 0 and the empty string are falsy, everything else
(including every object and array) is truthy. -/
def Json.falsy : Json → Bool
  | .null => true
  | .bool b => !b
  | .num n => n == 0
  | .str s => s == ""
  | .arr _ => false
  | .obj _ => false

/-- True exactly for objects and arrays, the values the body sanitizer
recurses into. -/
def Json.isComposite : Json → Bool
  | .arr _ => true
  | .obj _ => true
  | _ => false

/-- Log levels of the Logger (enum LogLevel in src/utils/logger.ts). -/
inductive LogLevel : Type
  | error
  | warn
  | info
  | debug
  deriving DecidableEq

/-- Index of a level in the array [ERROR, WARN, INFO, DEBUG] used by
Logger.shouldLog. -/
def levelIndex : LogLevel → Nat
  | .error => 0
  | .warn => 1
  | .info => 2
  | .debug => 3

/-- Logger.shouldLog: a message is emitted when its level index is at
most the configured level's index. -/
def shouldLog (configured msgLevel : LogLevel) : Bool :=
  levelIndex msgLevel ≤ levelIndex configured

/-- One emitted log entry. The data payload type is a parameter because
the source attaches values of arbitrary type (the request log data
object, or a caught error). The timestamp field of the source is wall
clock time and is not modelled. -/
structure LogEntry (α : Type) where
  level : LogLevel
  message : String
  data : Option α
  deriving DecidableEq

/-- Logger.log: emit an entry when shouldLog accepts its level, else
nothing. Returns the list of entries appended to the two sinks. -/
def logCall {α : Type} (configured lvl : LogLevel) (message : String)
    (data : Option α) : List (LogEntry α) :=
  if shouldLog configured lvl then [⟨lvl, message, data⟩] else []

/-- Lookup of a key in a record embedded as an association list;
JavaScript property access obj[key] on string-keyed records. -/
def assocGet {β : Type} (m : List (String × β)) (k : String) : Option β :=
  match m with
  | [] => none
  | p :: rest => if p.1 = k then some p.2 else assocGet rest k

/-- The fixed sensitive header list of Logger.sanitizeHeaders. -/
def sensitiveHeaderKeys : List String :=
  ["authorization", "cookie", "x-api-key", "x-auth-token"]

/-- JavaScript assignment obj[k] = v on a record that already holds the
key k: the value is replaced in place, insertion order kept. -/
def setHeaderVal (m : List (String × String)) (k v : String) :
    List (String × String) :=
  m.map fun p => if p.1 = k then (p.1, v) else p

/-- One iteration of the sensitiveKeys.forEach loop of
Logger.sanitizeHeaders: when the entry under the key is truthy (present
and non-empty) its value is overwritten with the redaction marker. -/
def redactStep (acc : List (String × String)) (key : String) :
    List (String × String) :=
  match assocGet acc key with
  | some v => if v ≠ "" then setHeaderVal acc key ("[REDACTED]") else acc
  | none => acc

/-- Core of Logger.sanitizeHeaders: copy the map, then run the forEach
loop over the sensitive names. -/
def sanitizeHeadersList (headers : List (String × String)) :
    List (String × String) :=
  sensitiveHeaderKeys.foldl redactStep headers

/-- Logger.sanitizeHeaders, including the undefined-headers guard
(if (!headers) return undefined). -/
def sanitizeHeaders (headers : Option (List (String × String))) :
    Option (List (String × String)) :=
  match headers with
  | none => none
  | some hs => some (sanitizeHeadersList hs)

/-- The fixed sensitive field substrings of Logger.sanitizeBody, exactly
as spelled in the source, capital C included. -/
def sensitiveFields : List String :=
  ["password", "token", "secret", "key", "ssn", "creditCard"]

/-- Character-list prefix test: needle matches at the head of hay. -/
def matchesAt : List Char → List Char → Bool
  | [], _ => true
  | _ :: _, [] => false
  | c :: cs, d :: ds => c == d && matchesAt cs ds

/-- Substring test on character lists; String.prototype.includes. -/
def containsSub (needle : List Char) : List Char → Bool
  | [] => matchesAt needle []
  | c :: rest => matchesAt needle (c :: rest) || containsSub needle rest

/-- The sensitive-key test of Logger.sanitizeBody:
sensitiveFields.some(field => key.toLowerCase().includes(field)). -/
def isSensitiveField (key : String) : Bool :=
  sensitiveFields.any fun f =>
    containsSub f.toList (key.toList.map Char.toLower)

mutual
/-- The recursive sanitizeObject closure inside Logger.sanitizeBody:
non-objects pass through, arrays map element-wise, objects rebuild each
entry, redacting values under sensitive keys. -/
def sanitizeObject : Json → Json
  | .arr elems => .arr (sanitizeElems elems)
  | .obj fields => .obj (sanitizeObjFields fields)
  | j => j
termination_by structural j => j

/-- Element-wise sanitization of an array (obj.map(sanitizeObject)). -/
def sanitizeElems : List Json → List Json
  | [] => []
  | x :: xs => sanitizeObject x :: sanitizeElems xs
termination_by structural l => l

/-- Entry-wise sanitization of an object (the for..of Object.entries
loop of sanitizeObject). -/
def sanitizeObjFields : List (String × Json) → List (String × Json)
  | [] => []
  | (k, v) :: rest =>
    (if isSensitiveField k then (k, Json.str ("[REDACTED]"))
     else (k, sanitizeObject v)) :: sanitizeObjFields rest
termination_by structural l => l
end

/-- Logger.sanitizeBody: a falsy body (undefined, null, false, 0, empty
string) returns undefined; otherwise the body is deep-copied via a
JSON round trip (the identity on the tree-shaped Json values modelled
here) and sanitized recursively. -/
def sanitizeBody (body : Option Json) : Option Json :=
  match body with
  | none => none
  | some b => if b.falsy then none else some (sanitizeObject b)

/-- The data object Logger.logRequest and Logger.logResponse attach to
their log entries: sanitized headers and sanitized body, either of which
may be undefined. -/
structure RequestLogData where
  headers : Option (List (String × String))
  body : Option Json

/-- Logger.logRequest: an info-level entry naming the method and URL,
carrying sanitized headers and body. -/
def logRequest (configured : LogLevel) (method url : String)
    (headers : Option (List (String × String))) (body : Option Json) :
    List (LogEntry RequestLogData) :=
  logCall configured .info (("API Request: ") ++ method ++ (" ") ++ url)
    (some ⟨sanitizeHeaders headers, sanitizeBody body⟩)

/-- Logger.logResponse: an info-level entry naming the status and URL,
carrying sanitized headers and body. -/
def logResponse (configured : LogLevel) (status : Nat) (url : String)
    (headers : Option (List (String × String))) (body : Option Json) :
    List (LogEntry RequestLogData) :=
  logCall configured .info
    (("API Response: ") ++ toString status ++ (" ") ++ url)
    (some ⟨sanitizeHeaders headers, sanitizeBody body⟩)

/-- JavaScript String.prototype.startsWith. -/
def jsStartsWith (s p : String) : Bool :=
  matchesAt p.toList s.toList

/-- JavaScript String.prototype.endsWith. -/
def jsEndsWith (s p : String) : Bool :=
  matchesAt p.toList.reverse s.toList.reverse

/-- JavaScript String.prototype.slice(0, -1): drop the final character. -/
def jsDropLast (s : String) : String :=
  ⟨s.toList.dropLast⟩

/-- ApiClient.buildUrl, identical in both client variants: an endpoint
that starts with the literal text http is returned as-is; otherwise one
trailing slash is stripped from the base and a leading slash ensured on
the endpoint. -/
def buildUrl (baseUrl endpoint : String) : String :=
  if jsStartsWith endpoint ("http") then endpoint
  else
    let base := if jsEndsWith baseUrl ("/") then jsDropLast baseUrl else baseUrl
    let cleanEndpoint :=
      if jsStartsWith endpoint ("/") then endpoint else ("/") ++ endpoint
    base ++ cleanEndpoint

/-- A query parameter value: string or number
(Record of string | number in ApiRequestOptions.params). -/
inductive ParamValue : Type
  | str (s : String)
  | num (n : Int)

/-- JavaScript String(value) on a parameter value. -/
def paramToString : ParamValue → String
  | .str s => s
  | .num n => toString n

/-- The caller-supplied options object of a per-verb call
(the used fields of Partial ApiRequestOptions). -/
structure CallOptions where
  headers : Option (List (String × String))
  data : Option Json
  params : Option (List (String × ParamValue))
  timeout : Option Nat

/-- The object spread of the per-verb data parameter into the options
(the expression spreading options and then data in post, put, patch). -/
def withData (o : CallOptions) (d : Option Json) : CallOptions :=
  ⟨o.headers, d, o.params, o.timeout⟩

/-- Object spread of caller headers over the defaults: keys of the base
keep their position, values overridden where the extension has the key;
new keys of the extension follow in their order. -/
def spreadMerge (base ext : List (String × String)) :
    List (String × String) :=
  (base.map fun p =>
    match assocGet ext p.1 with
    | some v => (p.1, v)
    | none => p)
    ++ ext.filter fun p => (assocGet base p.1).isNone

/-- Default headers of buildRequestOptions. -/
def defaultHeaders : List (String × String) :=
  [("Content-Type", "application/json"), ("Accept", "application/json")]

/-- Default of env.TEST_TIMEOUT (no environment override). -/
def envTestTimeout : Nat := 30000

/-- The request options object both variants build and hand to the
transport. -/
structure RequestOptions where
  method : String
  headers : List (String × String)
  timeout : Nat
  data : Option Json
  params : Option (List (String × String))

/-- ApiClient.buildRequestOptions, identical in both variants: default
headers overridable by caller headers, timeout falling back to the
config default when absent or zero (falsy), data attached only when
truthy, params stringified pairwise. -/
def buildRequestOptions (method : String) (options : CallOptions) :
    RequestOptions :=
  ⟨method,
   spreadMerge defaultHeaders (match options.headers with
     | some hs => hs
     | none => []),
   (match options.timeout with
     | some t => if t = 0 then envTestTimeout else t
     | none => envTestTimeout),
   (match options.data with
     | some d => if d.falsy then none else some d
     | none => none),
   options.params.map (List.map fun p => (p.1, paramToString p.2))⟩

/-- What the transport hands back on success, as the client reads it:
the status code, the outcome of attempting to parse the body as JSON
(none when the body is not valid JSON, in which case response.json()
rejects and the catch maps it to null), the headers map and the final
effective URL. -/
structure RawResponse where
  status : Nat
  jsonBody : Option Json
  headers : List (String × String)
  url : String

/-- The normalized response envelope (interface ApiResponse). -/
structure ApiResponse where
  status : Nat
  data : Json
  headers : List (String × String)
  url : String

/-- Behavior of the HTTP transport on one call: from the dispatched
method, the built URL and the built options to either an error value of
arbitrary type (a raised exception) or a raw response. -/
def Transport (ε : Type) : Type :=
  String → String → RequestOptions → Except ε RawResponse

/-- Outcome of one client call: the returned envelope or the re-raised
error, together with the log entries the call emitted in order. -/
structure ClientResult (ε : Type) where
  result : Except ε ApiResponse
  logs : List (LogEntry ε)

namespace ApiClientA

/-- ApiClient.get of the per-verb variant: build URL and options, log an
info line, dispatch, normalize (body parse failure to null), log an info
line with the status, and on a transport error log an error entry
carrying the error and re-raise it. -/
def get {ε : Type} (cfg : LogLevel) (baseUrl : String)
    (transport : Transport ε) (endpoint : String) (options : CallOptions) :
    ClientResult ε :=
  let url := buildUrl baseUrl endpoint
  let requestOptions := buildRequestOptions ("GET") options
  let preLogs := logCall cfg .info (("Making GET request to: ") ++ url) none
  match transport ("GET") url requestOptions with
  | .ok response =>
    let responseData : ApiResponse :=
      ⟨response.status, response.jsonBody.getD Json.null,
       response.headers, response.url⟩
    ⟨.ok responseData,
     preLogs ++ logCall cfg .info
       (("Response received: ") ++ toString responseData.status ++ (" - ") ++ url)
       none⟩
  | .error e =>
    ⟨.error e,
     preLogs ++ logCall cfg .error (("Request failed: GET ") ++ url) (some e)⟩

/-- ApiClient.post of the per-verb variant. -/
def post {ε : Type} (cfg : LogLevel) (baseUrl : String)
    (transport : Transport ε) (endpoint : String) (data : Option Json)
    (options : CallOptions) : ClientResult ε :=
  let url := buildUrl baseUrl endpoint
  let requestOptions := buildRequestOptions ("POST") (withData options data)
  let preLogs := logCall cfg .info (("Making POST request to: ") ++ url) none
  match transport ("POST") url requestOptions with
  | .ok response =>
    let responseData : ApiResponse :=
      ⟨response.status, response.jsonBody.getD Json.null,
       response.headers, response.url⟩
    ⟨.ok responseData,
     preLogs ++ logCall cfg .info
       (("Response received: ") ++ toString responseData.status ++ (" - ") ++ url)
       none⟩
  | .error e =>
    ⟨.error e,
     preLogs ++ logCall cfg .error (("Request failed: POST ") ++ url) (some e)⟩

/-- ApiClient.put of the per-verb variant. -/
def put {ε : Type} (cfg : LogLevel) (baseUrl : String)
    (transport : Transport ε) (endpoint : String) (data : Option Json)
    (options : CallOptions) : ClientResult ε :=
  let url := buildUrl baseUrl endpoint
  let requestOptions := buildRequestOptions ("PUT") (withData options data)
  let preLogs := logCall cfg .info (("Making PUT request to: ") ++ url) none
  match transport ("PUT") url requestOptions with
  | .ok response =>
    let responseData : ApiResponse :=
      ⟨response.status, response.jsonBody.getD Json.null,
       response.headers, response.url⟩
    ⟨.ok responseData,
     preLogs ++ logCall cfg .info
       (("Response received: ") ++ toString responseData.status ++ (" - ") ++ url)
       none⟩
  | .error e =>
    ⟨.error e,
     preLogs ++ logCall cfg .error (("Request failed: PUT ") ++ url) (some e)⟩

/-- ApiClient.delete of the per-verb variant. -/
def delete {ε : Type} (cfg : LogLevel) (baseUrl : String)
    (transport : Transport ε) (endpoint : String) (options : CallOptions) :
    ClientResult ε :=
  let url := buildUrl baseUrl endpoint
  let requestOptions := buildRequestOptions ("DELETE") options
  let preLogs := logCall cfg .info (("Making DELETE request to: ") ++ url) none
  match transport ("DELETE") url requestOptions with
  | .ok response =>
    let responseData : ApiResponse :=
      ⟨response.status, response.jsonBody.getD Json.null,
       response.headers, response.url⟩
    ⟨.ok responseData,
     preLogs ++ logCall cfg .info
       (("Response received: ") ++ toString responseData.status ++ (" - ") ++ url)
       none⟩
  | .error e =>
    ⟨.error e,
     preLogs ++ logCall cfg .error (("Request failed: DELETE ") ++ url) (some e)⟩

/-- ApiClient.patch of the per-verb variant. -/
def patch {ε : Type} (cfg : LogLevel) (baseUrl : String)
    (transport : Transport ε) (endpoint : String) (data : Option Json)
    (options : CallOptions) : ClientResult ε :=
  let url := buildUrl baseUrl endpoint
  let requestOptions := buildRequestOptions ("PATCH") (withData options data)
  let preLogs := logCall cfg .info (("Making PATCH request to: ") ++ url) none
  match transport ("PATCH") url requestOptions with
  | .ok response =>
    let responseData : ApiResponse :=
      ⟨response.status, response.jsonBody.getD Json.null,
       response.headers, response.url⟩
    ⟨.ok responseData,
     preLogs ++ logCall cfg .info
       (("Response received: ") ++ toString responseData.status ++ (" - ") ++ url)
       none⟩
  | .error e =>
    ⟨.error e,
     preLogs ++ logCall cfg .error (("Request failed: PATCH ") ++ url) (some e)⟩

end ApiClientA

namespace ApiClientB

/-- The private dispatcher of the alternate client variant, which routes
every verb through one method parameterized by the HTTP method. In the
source this method is spelled request, colliding with the class field
request that holds the transport context (a TypeScript duplicate
identifier); the embedding gives the method body its intended reading
under a non-colliding name. The transport is invoked through the
generic context request call, which takes the method from the built
options. -/
def dispatchRequest {ε : Type} (cfg : LogLevel) (baseUrl : String)
    (transport : Transport ε) (method : String) (endpoint : String)
    (options : CallOptions) : ClientResult ε :=
  let url := buildUrl baseUrl endpoint
  let requestOptions := buildRequestOptions method options
  let preLogs := logCall cfg .info
    (("Making ") ++ method ++ (" request to: ") ++ url) none
  match transport requestOptions.method url requestOptions with
  | .ok response =>
    ⟨.ok ⟨response.status, response.jsonBody.getD Json.null,
          response.headers, response.url⟩,
     preLogs ++ logCall cfg .info
       (("Response received: ") ++ toString response.status ++ (" - ") ++ url)
       none⟩
  | .error e =>
    ⟨.error e,
     preLogs ++ logCall cfg .error
       (("Request failed: ") ++ method ++ (" ") ++ url) (some e)⟩

/-- Per-verb wrapper get of the dispatcher variant. -/
def get {ε : Type} (cfg : LogLevel) (baseUrl : String)
    (transport : Transport ε) (endpoint : String) (options : CallOptions) :
    ClientResult ε :=
  dispatchRequest cfg baseUrl transport ("GET") endpoint options

/-- Per-verb wrapper post of the dispatcher variant. -/
def post {ε : Type} (cfg : LogLevel) (baseUrl : String)
    (transport : Transport ε) (endpoint : String) (data : Option Json)
    (options : CallOptions) : ClientResult ε :=
  dispatchRequest cfg baseUrl transport ("POST") endpoint (withData options data)

/-- Per-verb wrapper put of the dispatcher variant. -/
def put {ε : Type} (cfg : LogLevel) (baseUrl : String)
    (transport : Transport ε) (endpoint : String) (data : Option Json)
    (options : CallOptions) : ClientResult ε :=
  dispatchRequest cfg baseUrl transport ("PUT") endpoint (withData options data)

/-- Per-verb wrapper delete of the dispatcher variant. -/
def delete {ε : Type} (cfg : LogLevel) (baseUrl : String)
    (transport : Transport ε) (endpoint : String) (options : CallOptions) :
    ClientResult ε :=
  dispatchRequest cfg baseUrl transport ("DELETE") endpoint options

/-- Per-verb wrapper patch of the dispatcher variant. -/
def patch {ε : Type} (cfg : LogLevel) (baseUrl : String)
    (transport : Transport ε) (endpoint : String) (data : Option Json)
    (options : CallOptions) : ClientResult ε :=
  dispatchRequest cfg baseUrl transport ("PATCH") endpoint (withData options data)

end ApiClientB

/-- A process environment: from a variable name to its value, none when
the variable is unset. -/
def Environ : Type := String → Option String

/-- JavaScript falsiness of process.env[name]: unset (undefined) or the
empty string. -/
def envFalsy (v : Option String) : Bool :=
  match v with
  | none => true
  | some s => s == ""

/-- The hardcoded required variable list of validateEnvironment. -/
def requiredVars : List String := ["BASE_URL", "API_BASE_URL"]

/-- The filter step of validateEnvironment: every required name whose
environment entry is falsy, in list order. -/
def missingVars (required : List String) (environ : Environ) : List String :=
  required.filter fun name => envFalsy (environ name)

/-- The message of the error validateEnvironment raises. -/
def missingMessage (missing : List String) : String :=
  ("Missing required environment variables: ")
    ++ String.intercalate (", ") missing
    ++ ("\n")
    ++ ("Please check your .env file and ensure all required variables are set.")

/-- The body of validateEnvironment over an arbitrary required list (the
local requiredVars constant of the source made a parameter). -/
def validateRequired (required : List String) (environ : Environ) :
    Except String Unit :=
  if (missingVars required environ).length > 0 then
    .error (missingMessage (missingVars required environ))
  else .ok ()

/-- validateEnvironment of src/utils/env.ts. -/
def validateEnvironment (environ : Environ) : Except String Unit :=
  validateRequired requiredVars environ

/-- The pagination sub-object of the generated pagination envelope. -/
structure PaginationInfo where
  page : Nat
  limit : Nat
  total : Nat
  totalPages : Nat
  hasNext : Bool
  hasPrev : Bool
  deriving DecidableEq

/-- The generated pagination envelope (interface PaginationData). -/
structure PaginationData (T : Type) where
  data : List T
  pagination : PaginationInfo
  deriving DecidableEq

/-- TestDataGenerator.generatePaginationData. Math.ceil(total / limit)
on naturals with limit positive is (total + limit - 1) / limit, and
items.slice(startIndex, startIndex + limit) with a non-negative start is
take limit of drop startIndex. Page and limit are embedded as naturals;
the claims constrain both to be at least 1, where the JavaScript
arithmetic and this embedding agree. -/
def generatePaginationData {T : Type} (items : List T) (page limit : Nat) :
    PaginationData T :=
  let total := items.length
  let totalPages := (total + limit - 1) / limit
  let startIndex := (page - 1) * limit
  let paginatedItems := (items.drop startIndex).take limit
  ⟨paginatedItems,
   ⟨page, limit, total, totalPages, decide (page < totalPages),
    decide (page > 1)⟩⟩

/-- Claim-side predicate, written from the specification's words, not
from the source: a string that already has a URI scheme, a leading
letter followed by letters, digits, plus, minus or dot up to a colon. -/
def specSchemeChar (c : Char) : Bool :=
  c.isAlpha || c.isDigit || c == '+' || c == '-' || c == '.'

/-- Tail of the claim-side scheme test: scheme characters up to a colon. -/
def specSchemeTail : List Char → Bool
  | [] => false
  | c :: rest => if c == ':' then true else specSchemeChar c && specSchemeTail rest

/-- Claim-side scheme test: a letter followed by scheme characters and a
colon somewhere before the end. -/
def specHasScheme (s : String) : Bool :=
  match s.toList with
  | [] => false
  | c :: rest => c.isAlpha && specSchemeTail rest

/-- Claim-side description of header sanitization, written from the
specification's words as amended: an entry is redacted exactly when its
name is literally (case-sensitively) in the sensitive list and its value
is non-empty; every other entry is untouched. -/
def headerSpecRedact (ks : List String) (p : String × String) :
    String × String :=
  if p.1 ∈ ks ∧ p.2 ≠ "" then (p.1, ("[REDACTED]")) else p

/-- An environment in which both required variables are present but
BASE_URL is bound to the empty string. -/
def envPresentEmpty : Environ :=
  fun name =>
    if name = ("BASE_URL") then some ("")
    else if name = ("API_BASE_URL") then some ("http://localhost:3000/api")
    else none

/-- Strings are equal when their character data is equal. -/
theorem strEqOfData (a b : String) (h : a.data = b.data) : a = b := by
  cases a
  cases b
  exact congrArg String.mk h

/-- C3: the specification says any object key whose lowercase form
contains the substring creditcard is redacted at any depth, naming
creditCardNumber as an example. The source spells the sensitive entry
creditCard with a capital C and compares it against the lower-cased key
with includes, so the entry can never match: a creditCardNumber field
passes through the sanitizer unredacted. -/
theorem creditCard_field_never_redacted :
    sanitizeBody
        (some (Json.obj [(("creditCardNumber"), Json.str ("4111111111111111"))]))
      = some (Json.obj [(("creditCardNumber"), Json.str ("4111111111111111"))])
    ∧ isSensitiveField ("creditCardNumber") = false
    ∧ containsSub ("creditcard").toList
        (("creditCardNumber").toList.map Char.toLower) = true := by
  exact ⟨rfl, rfl, rfl⟩

/-- C4: for every verb operation, when the transport succeeds with a
body that is not valid JSON (the parse attempt yields nothing), the
returned envelope carries data null and the transport's status
unchanged, and the operation returns normally rather than raising. -/
theorem nonjson_body_yields_null_data {ε : Type} (cfg : LogLevel)
    (baseUrl endpoint : String) (options : CallOptions) (data : Option Json)
    (st : Nat) (hs : List (String × String)) (u : String) :
    (ApiClientA.get cfg baseUrl ((fun _ _ _ => Except.ok ⟨st, none, hs, u⟩) : Transport ε)
        endpoint options).result = Except.ok ⟨st, Json.null, hs, u⟩
    ∧ (ApiClientA.post cfg baseUrl ((fun _ _ _ => Except.ok ⟨st, none, hs, u⟩) : Transport ε)
        endpoint data options).result = Except.ok ⟨st, Json.null, hs, u⟩
    ∧ (ApiClientA.put cfg baseUrl ((fun _ _ _ => Except.ok ⟨st, none, hs, u⟩) : Transport ε)
        endpoint data options).result = Except.ok ⟨st, Json.null, hs, u⟩
    ∧ (ApiClientA.delete cfg baseUrl ((fun _ _ _ => Except.ok ⟨st, none, hs, u⟩) : Transport ε)
        endpoint options).result = Except.ok ⟨st, Json.null, hs, u⟩
    ∧ (ApiClientA.patch cfg baseUrl ((fun _ _ _ => Except.ok ⟨st, none, hs, u⟩) : Transport ε)
        endpoint data options).result = Except.ok ⟨st, Json.null, hs, u⟩ := by
  exact ⟨rfl, rfl, rfl, rfl, rfl⟩

/-- C5: for every verb operation, when the transport raises, the call
rejects with the very same error value and the emitted log entries hold
exactly one error-level entry, whose message spells the method and the
request URL; this is independent of the configured log level, because
error always passes the threshold. -/
theorem transport_error_logged_once_and_reraised {ε : Type} (cfg : LogLevel)
    (baseUrl endpoint : String) (options : CallOptions) (data : Option Json)
    (e : ε) :
    ((ApiClientA.get cfg baseUrl (fun _ _ _ => Except.error e)
        endpoint options).result = Except.error e
      ∧ (ApiClientA.get cfg baseUrl (fun _ _ _ => Except.error e)
          endpoint options).logs.filter
            (fun en => decide (en.level = LogLevel.error))
        = [⟨LogLevel.error,
            ("Request failed: GET ") ++ buildUrl baseUrl endpoint, some e⟩])
    ∧ ((ApiClientA.post cfg baseUrl (fun _ _ _ => Except.error e)
        endpoint data options).result = Except.error e
      ∧ (ApiClientA.post cfg baseUrl (fun _ _ _ => Except.error e)
          endpoint data options).logs.filter
            (fun en => decide (en.level = LogLevel.error))
        = [⟨LogLevel.error,
            ("Request failed: POST ") ++ buildUrl baseUrl endpoint, some e⟩])
    ∧ ((ApiClientA.put cfg baseUrl (fun _ _ _ => Except.error e)
        endpoint data options).result = Except.error e
      ∧ (ApiClientA.put cfg baseUrl (fun _ _ _ => Except.error e)
          endpoint data options).logs.filter
            (fun en => decide (en.level = LogLevel.error))
        = [⟨LogLevel.error,
            ("Request failed: PUT ") ++ buildUrl baseUrl endpoint, some e⟩])
    ∧ ((ApiClientA.delete cfg baseUrl (fun _ _ _ => Except.error e)
        endpoint options).result = Except.error e
      ∧ (ApiClientA.delete cfg baseUrl (fun _ _ _ => Except.error e)
          endpoint options).logs.filter
            (fun en => decide (en.level = LogLevel.error))
        = [⟨LogLevel.error,
            ("Request failed: DELETE ") ++ buildUrl baseUrl endpoint, some e⟩])
    ∧ ((ApiClientA.patch cfg baseUrl (fun _ _ _ => Except.error e)
        endpoint data options).result = Except.error e
      ∧ (ApiClientA.patch cfg baseUrl (fun _ _ _ => Except.error e)
          endpoint data options).logs.filter
            (fun en => decide (en.level = LogLevel.error))
        = [⟨LogLevel.error,
            ("Request failed: PATCH ") ++ buildUrl baseUrl endpoint, some e⟩]) := by
  cases cfg <;>
    exact ⟨⟨rfl, rfl⟩, ⟨rfl, rfl⟩, ⟨rfl, rfl⟩, ⟨rfl, rfl⟩, ⟨rfl, rfl⟩⟩

/-- C8: the per-verb client and the dispatcher client, the latter read
with its intended dispatch method (the source's method named request is
shadowed by the field of the same name, so as written every call fails
instead of dispatching), agree on every verb, endpoint, body, options
and transport behavior: same envelope, same log entries, same re-raised
error. -/
theorem client_variants_intended_equivalence {ε : Type} (cfg : LogLevel)
    (baseUrl : String) (transport : Transport ε) (endpoint : String)
    (data : Option Json) (options : CallOptions) :
    ApiClientA.get cfg baseUrl transport endpoint options
        = ApiClientB.get cfg baseUrl transport endpoint options
    ∧ ApiClientA.post cfg baseUrl transport endpoint data options
        = ApiClientB.post cfg baseUrl transport endpoint data options
    ∧ ApiClientA.put cfg baseUrl transport endpoint data options
        = ApiClientB.put cfg baseUrl transport endpoint data options
    ∧ ApiClientA.delete cfg baseUrl transport endpoint options
        = ApiClientB.delete cfg baseUrl transport endpoint options
    ∧ ApiClientA.patch cfg baseUrl transport endpoint data options
        = ApiClientB.patch cfg baseUrl transport endpoint data options := by
  exact ⟨rfl, rfl, rfl, rfl, rfl⟩

/-- C1 counterexample: a POST carrying an email and a password, against
a transport answering 201, emits exactly two info entries, both with no
data payload at all: the client never hands headers or body to the
logger, so no log entry exists whose body shows the password redacted
and the email visible. -/
theorem post_password_body_never_logged_counterexample :
    (@ApiClientA.post String LogLevel.info ("http://x")
        (fun _ _ _ =>
          Except.ok ⟨201, some (Json.obj [(("user"), Json.str ("u1"))]), [],
            ("http://x/register")⟩)
        ("/register")
        (some (Json.obj
          [(("email"), Json.str ("a@b.com")),
           (("password"), Json.str ("Secret123!"))]))
        ⟨none, none, none, none⟩).logs
      = [⟨LogLevel.info, ("Making POST request to: http://x/register"), none⟩,
         ⟨LogLevel.info, ("Response received: 201 - http://x/register"), none⟩]
    ∧ ((@ApiClientA.post String LogLevel.info ("http://x")
        (fun _ _ _ =>
          Except.ok ⟨201, some (Json.obj [(("user"), Json.str ("u1"))]), [],
            ("http://x/register")⟩)
        ("/register")
        (some (Json.obj
          [(("email"), Json.str ("a@b.com")),
           (("password"), Json.str ("Secret123!"))]))
        ⟨none, none, none, none⟩).logs.all fun en => en.data.isNone) = true := by
  exact ⟨rfl, rfl⟩

/-- C2 counterexample: a header named Authorization, with a capital A,
is not in the exact-match sensitive list, so its value survives
sanitization verbatim, though the claim requires redaction in any letter
casing. -/
theorem sanitizeHeaders_case_sensitive_counterexample :
    sanitizeHeaders (some [(("Authorization"), ("Bearer abc"))])
      = some [(("Authorization"), ("Bearer abc"))]
    ∧ ("Bearer abc") ≠ ("[REDACTED]") := by
  exact ⟨rfl, by decide⟩

/-- C6 counterexample: the endpoint ftp://z has a URI scheme, yet the
code only tests for the literal text http and therefore glues the base
URL in front of it instead of returning it as-is. -/
theorem buildUrl_scheme_counterexample :
    specHasScheme ("ftp://z") = true
    ∧ buildUrl ("http://x") ("ftp://z") = ("http://x/ftp://z")
    ∧ ("http://x/ftp://z") ≠ ("ftp://z") := by
  exact ⟨rfl, rfl, by decide⟩

/-- C7 counterexample: the scalar false is not returned unchanged by the
body sanitizer: it is falsy, so the sanitizer returns undefined. -/
theorem sanitizeBody_falsy_scalar_counterexample :
    (Json.bool false).isComposite = false
    ∧ sanitizeBody (some (Json.bool false)) = none
    ∧ sanitizeBody (some (Json.bool false)) ≠ some (Json.bool false) := by
  exact ⟨rfl, rfl, fun h => Option.noConfusion h⟩

/-- C9 counterexample: with every required variable present but BASE_URL
bound to the empty string, validation still fails, though the claim says
it completes without error whenever all required entries are present. -/
theorem validateEnvironment_empty_string_counterexample :
    (requiredVars.all fun v => (envPresentEmpty v).isSome) = true
    ∧ validateEnvironment envPresentEmpty
        = Except.error (missingMessage [("BASE_URL")]) := by
  exact ⟨rfl, rfl⟩

/-- C1 (amended): each per-verb operation logs one info message naming
the method and the built URL before dispatch and, on success, one info
message naming the status and URL; none of these entries carries any
data payload, so no headers or body reach the log. The Logger's
logRequest helper itself does sanitize: for a POST body holding an email
and a password, its entry's body shows the password replaced by the
redaction marker while the email stays visible. -/
theorem client_message_logs_and_logRequest_redaction {ε : Type}
    (cfg : LogLevel) (baseUrl endpoint : String) (options : CallOptions)
    (data : Option Json) (raw : RawResponse) (url : String)
    (hs : Option (List (String × String))) (em pw : String) :
    (ApiClientA.get cfg baseUrl ((fun _ _ _ => Except.ok raw) : Transport ε)
        endpoint options).logs
      = logCall cfg .info
          (("Making GET request to: ") ++ buildUrl baseUrl endpoint) none
        ++ logCall cfg .info
            (("Response received: ") ++ toString raw.status ++ (" - ")
              ++ buildUrl baseUrl endpoint) none
    ∧ ((ApiClientA.get cfg baseUrl ((fun _ _ _ => Except.ok raw) : Transport ε)
        endpoint options).logs.all fun en => en.data.isNone) = true
    ∧ ((ApiClientA.post cfg baseUrl ((fun _ _ _ => Except.ok raw) : Transport ε)
        endpoint data options).logs.all fun en => en.data.isNone) = true
    ∧ ((ApiClientA.put cfg baseUrl ((fun _ _ _ => Except.ok raw) : Transport ε)
        endpoint data options).logs.all fun en => en.data.isNone) = true
    ∧ ((ApiClientA.delete cfg baseUrl ((fun _ _ _ => Except.ok raw) : Transport ε)
        endpoint options).logs.all fun en => en.data.isNone) = true
    ∧ ((ApiClientA.patch cfg baseUrl ((fun _ _ _ => Except.ok raw) : Transport ε)
        endpoint data options).logs.all fun en => en.data.isNone) = true
    ∧ logRequest LogLevel.info ("POST") url hs
        (some (Json.obj
          [(("email"), Json.str em), (("password"), Json.str pw)]))
      = [⟨LogLevel.info, ("API Request: POST ") ++ url,
          some ⟨sanitizeHeaders hs,
            some (Json.obj
              [(("email"), Json.str em),
               (("password"), Json.str ("[REDACTED]"))])⟩⟩] := by
  cases cfg <;> exact ⟨rfl, rfl, rfl, rfl, rfl, rfl, rfl⟩

/-- C7 (amended): the sanitizers are total; a truthy scalar (neither
object nor array, and not null, false, 0 or the empty string) passes
through the body sanitizer unchanged, while any falsy input, undefined
included, comes back as undefined. -/
theorem sanitizeBody_scalar_behavior (j k : Json)
    (h1 : j.isComposite = false) (h2 : j.falsy = false)
    (h3 : k.falsy = true) :
    sanitizeBody (some j) = some j
    ∧ sanitizeBody (some k) = none
    ∧ sanitizeBody none = none := by
  refine ⟨?_, ?_, rfl⟩
  · cases j <;>
      simp_all [sanitizeBody, sanitizeObject, Json.isComposite, Json.falsy]
  · simp [sanitizeBody, h3]

/-- Witness: the truthy scalar string hello is returned unchanged. -/
theorem sanitizeBody_scalar_behavior_witness :
    (Json.str ("hello")).isComposite = false
    ∧ (Json.str ("hello")).falsy = false
    ∧ (Json.num 0).falsy = true
    ∧ sanitizeBody (some (Json.str ("hello"))) = some (Json.str ("hello")) := by
  exact ⟨rfl, rfl, rfl,
    (sanitizeBody_scalar_behavior (Json.str ("hello")) (Json.num 0)
      rfl rfl rfl).1⟩

/-- C9 (amended): validation succeeds exactly when every required
variable is present with a non-empty value; otherwise it fails with the
error enumerating the complete list of required variables whose entries
are absent or empty, a required name appearing in that list exactly when
its entry is absent or empty, not just the first such name. -/
theorem validateRequired_characterization (required : List String)
    (environ : Environ) (v : String) :
    (validateRequired required environ = Except.ok ()
        ↔ (required.all fun w => !envFalsy (environ w)) = true)
    ∧ (missingVars required environ ≠ [] →
        validateRequired required environ
          = Except.error (missingMessage (missingVars required environ)))
    ∧ (v ∈ required →
        (v ∈ missingVars required environ ↔ envFalsy (environ v) = true)) := by
  have h2 : missingVars required environ = []
      ↔ (required.all fun w => !envFalsy (environ w)) = true := by
    simp [missingVars, List.filter_eq_nil_iff, List.all_eq_true]
  refine ⟨?_, ?_, ?_⟩
  · constructor
    · intro hok
      rw [← h2]
      by_contra hne
      have hpos : (missingVars required environ).length > 0 :=
        List.length_pos.mpr hne
      unfold validateRequired at hok
      rw [if_pos hpos] at hok
      exact Except.noConfusion hok
    · intro hall
      have hmn : missingVars required environ = [] := h2.mpr hall
      unfold validateRequired
      rw [hmn]
      simp
  · intro hne
    have hpos : (missingVars required environ).length > 0 :=
      List.length_pos.mpr hne
    unfold validateRequired
    rw [if_pos hpos]
  · intro hv
    simp [missingVars, List.mem_filter, hv]

/-- Witness: with ALPHA bound and BETA unset, validation fails with the
message enumerating the missing list, and BETA is in it. -/
theorem validateRequired_characterization_witness :
    missingVars [("ALPHA"), ("BETA")]
        (fun n => if n = ("ALPHA") then some ("x") else none) ≠ []
    ∧ validateRequired [("ALPHA"), ("BETA")]
        (fun n => if n = ("ALPHA") then some ("x") else none)
      = Except.error (missingMessage (missingVars [("ALPHA"), ("BETA")]
          (fun n => if n = ("ALPHA") then some ("x") else none)))
    ∧ ("BETA") ∈ ([("ALPHA"), ("BETA")] : List String)
    ∧ (("BETA") ∈ missingVars [("ALPHA"), ("BETA")]
          (fun n => if n = ("ALPHA") then some ("x") else none)
        ↔ envFalsy ((fun n => if n = ("ALPHA") then some ("x") else none)
            ("BETA")) = true) := by
  refine ⟨by decide,
    (validateRequired_characterization [("ALPHA"), ("BETA")]
      (fun n => if n = ("ALPHA") then some ("x") else none) ("BETA")).2.1
        (by decide),
    by decide,
    (validateRequired_characterization [("ALPHA"), ("BETA")]
      (fun n => if n = ("ALPHA") then some ("x") else none) ("BETA")).2.2
        (by decide)⟩

/-- Lookup misses exactly when no entry bears the key. -/
theorem assocGet_eq_none_iff {β : Type} (m : List (String × β)) (k : String) :
    assocGet m k = none ↔ ∀ p ∈ m, p.1 ≠ k := by
  induction m with
  | nil => simp [assocGet]
  | cons q rest ih =>
    by_cases h : q.1 = k
    · simp [assocGet, h]
    · simp [assocGet, h, ih]

/-- On a record with distinct keys, lookup finds the value of the unique
entry bearing the key. -/
theorem assocGet_of_mem {β : Type} (m : List (String × β)) (k : String)
    (v : β) (hnd : (m.map Prod.fst).Nodup) (hm : (k, v) ∈ m) :
    assocGet m k = some v := by
  induction m with
  | nil => cases hm
  | cons q rest ih =>
    rcases List.mem_cons.mp hm with h | h
    · rw [← h]
      simp [assocGet]
    · have hq : q.1 ≠ k := by
        intro he
        have hk : k ∈ rest.map Prod.fst := List.mem_map.mpr ⟨(k, v), h, rfl⟩
        rw [List.map_cons] at hnd
        have hout := (List.nodup_cons.mp hnd).1
        rw [he] at hout
        exact hout hk
      have hnd' : (rest.map Prod.fst).Nodup := by
        rw [List.map_cons] at hnd
        exact (List.nodup_cons.mp hnd).2
      simp [assocGet, hq]
      exact ih hnd' h

/-- In-place value replacement keeps the key sequence. -/
theorem keys_setHeaderVal (m : List (String × String)) (k v : String) :
    (setHeaderVal m k v).map Prod.fst = m.map Prod.fst := by
  unfold setHeaderVal
  rw [List.map_map]
  apply List.map_congr_left
  intro p _
  by_cases h : p.1 = k <;> simp [h, Function.comp]

/-- One redaction step keeps the key sequence. -/
theorem keys_redactStep (acc : List (String × String)) (key : String) :
    (redactStep acc key).map Prod.fst = acc.map Prod.fst := by
  unfold redactStep
  cases assocGet acc key with
  | none => rfl
  | some v => by_cases h : v = "" <;> simp [h, keys_setHeaderVal]

/-- The forEach loop over any duplicate-free name list acts entrywise:
an entry is redacted exactly when its key is literally in the list and
its value is non-empty. -/
theorem foldl_redactStep_characterization (ks : List String) :
    ∀ (headers : List (String × String)), ks.Nodup →
      (headers.map Prod.fst).Nodup →
      ks.foldl redactStep headers = headers.map (headerSpecRedact ks) := by
  induction ks with
  | nil =>
    intro headers _ _
    simp only [List.foldl_nil]
    symm
    have h : ∀ p ∈ headers, headerSpecRedact [] p = p := fun p _ => by
      simp [headerSpecRedact]
    simp [List.map_congr_left h]
  | cons k0 ks ih =>
    intro headers hks hnd
    have hk0 : k0 ∉ ks := (List.nodup_cons.mp hks).1
    have hks' : ks.Nodup := (List.nodup_cons.mp hks).2
    have hnd' : ((redactStep headers k0).map Prod.fst).Nodup := by
      rw [keys_redactStep]
      exact hnd
    rw [List.foldl_cons, ih (redactStep headers k0) hks' hnd']
    cases hg : assocGet headers k0 with
    | none =>
      have hall : ∀ p ∈ headers, p.1 ≠ k0 :=
        (assocGet_eq_none_iff headers k0).mp hg
      simp only [redactStep, hg]
      apply List.map_congr_left
      intro p hp
      have hne : p.1 ≠ k0 := hall p hp
      simp [headerSpecRedact, hne]
    | some v =>
      by_cases hv : v = ""
      · simp only [redactStep, hg]
        rw [if_neg (by simp [hv])]
        apply List.map_congr_left
        intro p hp
        by_cases hpk : p.1 = k0
        · have hpv : p.2 = v := by
            have h1 : assocGet headers p.1 = some p.2 :=
              assocGet_of_mem headers p.1 p.2 hnd hp
            rw [hpk, hg] at h1
            exact (Option.some_inj.mp h1).symm
          simp [headerSpecRedact, hpk, hpv, hv, hk0]
        · simp [headerSpecRedact, hpk]
      · simp only [redactStep, hg]
        rw [if_pos hv]
        unfold setHeaderVal
        rw [List.map_map]
        apply List.map_congr_left
        intro p hp
        by_cases hpk : p.1 = k0
        · have hpv : p.2 = v := by
            have h1 : assocGet headers p.1 = some p.2 :=
              assocGet_of_mem headers p.1 p.2 hnd hp
            rw [hpk, hg] at h1
            exact (Option.some_inj.mp h1).symm
          simp [Function.comp, headerSpecRedact, hpk, hpv, hv, hk0]
        · simp [Function.comp, headerSpecRedact, hpk]

/-- C2 (amended): on a headers map with distinct names, sanitization
acts entrywise: a header is redacted exactly when its name is literally
(case-sensitively) one of authorization, cookie, x-api-key,
x-auth-token and its value is non-empty; every other header, other
casings of the sensitive names included, keeps its value. -/
theorem sanitizeHeaders_exact_match_redaction
    (headers : List (String × String))
    (hnd : (headers.map Prod.fst).Nodup) :
    sanitizeHeadersList headers
        = headers.map (headerSpecRedact sensitiveHeaderKeys)
    ∧ sanitizeHeaders (some headers)
        = some (headers.map (headerSpecRedact sensitiveHeaderKeys)) := by
  have h := foldl_redactStep_characterization sensitiveHeaderKeys headers
    (by decide) hnd
  exact ⟨h, congrArg some h⟩

/-- Witness: a lowercase authorization header is redacted and an
unrelated header survives, on a concrete two-entry map. -/
theorem sanitizeHeaders_exact_match_redaction_witness :
    (([(("authorization"), ("Bearer tok")), (("Other"), ("v"))] :
        List (String × String)).map Prod.fst).Nodup
    ∧ sanitizeHeadersList
        [(("authorization"), ("Bearer tok")), (("Other"), ("v"))]
      = [(("authorization"), ("Bearer tok")), (("Other"), ("v"))].map
          (headerSpecRedact sensitiveHeaderKeys) := by
  exact ⟨by decide,
    (sanitizeHeaders_exact_match_redaction
      [(("authorization"), ("Bearer tok")), (("Other"), ("v"))]
      (by decide)).1⟩

/-- C6 (amended): for a base URL with at most one trailing slash and an
endpoint with at most one leading slash that does not start with the
literal text http, the built URL joins them with exactly one separating
slash, and in particular the two quoted examples coincide; an endpoint
starting with the literal text http (the test the code actually runs,
in place of a scheme test) is returned as-is, untouched by the base. -/
theorem buildUrl_slash_join_characterization (b e e2 : String)
    (hb : jsEndsWith b ("/") = false) (he : jsStartsWith e ("/") = false)
    (hh : jsStartsWith e ("http") = false)
    (h2 : jsStartsWith e2 ("http") = true) :
    buildUrl b e = b ++ ("/") ++ e
    ∧ buildUrl (b ++ ("/")) e = b ++ ("/") ++ e
    ∧ buildUrl b (("/") ++ e) = b ++ ("/") ++ e
    ∧ buildUrl (b ++ ("/")) (("/") ++ e) = b ++ ("/") ++ e
    ∧ buildUrl b e2 = e2
    ∧ buildUrl ("http://x/") ("/y") = ("http://x/y")
    ∧ buildUrl ("http://x") ("y") = ("http://x/y") := by
  have hslashdata : (("/") ++ e).toList = '/' :: e.data := by
    show (("/") ++ e).data = '/' :: e.data
    rw [String.data_append]
    rfl
  have hslashE_http : jsStartsWith (("/") ++ e) ("http") = false := by
    unfold jsStartsWith
    rw [hslashdata]
    rfl
  have hslashE_slash : jsStartsWith (("/") ++ e) ("/") = true := by
    unfold jsStartsWith
    rw [hslashdata]
    rfl
  have hbslash_ends : jsEndsWith (b ++ ("/")) ("/") = true := by
    unfold jsEndsWith
    have hrev : (b ++ ("/")).toList.reverse = '/' :: b.data.reverse := by
      show (b ++ ("/")).data.reverse = '/' :: b.data.reverse
      rw [String.data_append, List.reverse_append]
      rfl
    rw [hrev]
    rfl
  have hdropb : jsDropLast (b ++ ("/")) = b := by
    apply strEqOfData
    show (b ++ ("/")).toList.dropLast = b.data
    have h1 : (b ++ ("/")).toList = b.data ++ ['/'] := by
      show (b ++ ("/")).data = b.data ++ ['/']
      rw [String.data_append]
    rw [h1, List.dropLast_concat]
  have hassoc : ∀ (x y z : String), x ++ y ++ z = x ++ (y ++ z) := by
    intro x y z
    apply strEqOfData
    simp [String.data_append]
  refine ⟨?_, ?_, ?_, ?_, ?_, rfl, rfl⟩
  · simp only [buildUrl, hh, hb, he, Bool.false_eq_true, if_false]
    exact (hassoc b ("/") e).symm
  · simp only [buildUrl, hh, hbslash_ends, he, Bool.false_eq_true, if_false,
      if_true, hdropb]
    exact (hassoc b ("/") e).symm
  · simp only [buildUrl, hslashE_http, hb, hslashE_slash, Bool.false_eq_true,
      if_false, if_true]
    exact (hassoc b ("/") e).symm
  · simp only [buildUrl, hslashE_http, hbslash_ends, hslashE_slash,
      Bool.false_eq_true, if_false, if_true, hdropb]
    exact (hassoc b ("/") e).symm
  · simp only [buildUrl, h2, if_true]

/-- Witness: joining the base without a trailing slash to the endpoint
without a leading slash inserts exactly one slash, and an endpoint
starting with http is used as-is. -/
theorem buildUrl_slash_join_characterization_witness :
    jsEndsWith ("http://a") ("/") = false
    ∧ jsStartsWith ("y") ("/") = false
    ∧ jsStartsWith ("y") ("http") = false
    ∧ jsStartsWith ("https://b") ("http") = true
    ∧ buildUrl ("http://a") ("y") = ("http://a") ++ ("/") ++ ("y") := by
  exact ⟨rfl, rfl, rfl, rfl,
    (buildUrl_slash_join_characterization ("http://a") ("y") ("https://b")
      rfl rfl rfl rfl).1⟩

/-- Splitting a list into consecutive chunks of a positive size and
concatenating them gives the list back, as soon as enough chunks are
taken to cover its length. -/
theorem flatten_range_take_drop {α : Type} (limit : Nat) :
    ∀ (n : Nat) (l : List α), l.length ≤ n * limit →
      ((List.range n).map fun i => (l.drop (i * limit)).take limit).flatten
        = l := by
  intro n
  induction n with
  | zero =>
    intro l h
    simp only [Nat.zero_mul, Nat.le_zero] at h
    rw [List.eq_nil_of_length_eq_zero h]
    simp
  | succ n ih =>
    intro l h
    rw [List.range_succ, List.map_append, List.flatten_append]
    have hlast : (l.drop (n * limit)).take limit = l.drop (n * limit) := by
      apply List.take_of_length_le
      rw [List.length_drop]
      have hsm : (n + 1) * limit = n * limit + limit := Nat.succ_mul n limit
      omega
    have hmap : ((List.range n).map fun i => (l.drop (i * limit)).take limit)
        = (List.range n).map
            fun i => ((l.take (n * limit)).drop (i * limit)).take limit := by
      apply List.map_congr_left
      intro i hi
      have hi' : i < n := List.mem_range.mp hi
      have hle : i * limit + limit ≤ n * limit := by
        rw [← Nat.succ_mul]
        exact Nat.mul_le_mul_right limit hi'
      rw [List.drop_take, List.take_take]
      congr 1
      omega
    rw [hmap,
      ih (l.take (n * limit)) (by rw [List.length_take]; exact Nat.min_le_left ..)]
    simp [hlast, List.take_append_drop]

/-- C10: for a positive page and positive limit, the pagination
generator returns the slice of the items from index (page-1)*limit up to
page*limit, total equal to the item count, totalPages the ceiling of
total over limit, hasNext exactly when page is below totalPages, hasPrev
exactly when page exceeds 1; consequently a page never holds more than
limit items and the pages 1 through totalPages concatenate back to the
original list. -/
theorem generatePaginationData_spec {α : Type} (items : List α)
    (page limit : Nat) (hp : 1 ≤ page) (hl : 1 ≤ limit) :
    (generatePaginationData items page limit).data
        = (items.drop ((page - 1) * limit)).take
            (page * limit - (page - 1) * limit)
    ∧ (generatePaginationData items page limit).pagination.total
        = items.length
    ∧ (generatePaginationData items page limit).pagination.totalPages
        = items.length ⌈/⌉ limit
    ∧ ((generatePaginationData items page limit).pagination.hasNext = true
        ↔ page < (generatePaginationData items page limit).pagination.totalPages)
    ∧ ((generatePaginationData items page limit).pagination.hasPrev = true
        ↔ 1 < page)
    ∧ (generatePaginationData items page limit).data.length ≤ limit
    ∧ ((List.range
          (generatePaginationData items page limit).pagination.totalPages).map
        fun i => (generatePaginationData items (i + 1) limit).data).flatten
      = items := by
  have hsub : page * limit - (page - 1) * limit = limit := by
    obtain ⟨q, rfl⟩ : ∃ q, page = q + 1 :=
      ⟨page - 1, (Nat.succ_pred_eq_of_pos hp).symm⟩
    simp only [Nat.add_sub_cancel]
    rw [Nat.add_mul, Nat.one_mul]
    omega
  refine ⟨?_, rfl, ?_, ?_, ?_, ?_, ?_⟩
  · rw [hsub]
    rfl
  · exact (Nat.ceilDiv_eq_add_pred_div items.length limit).symm
  · simp [generatePaginationData]
  · simp [generatePaginationData]
  · exact List.length_take_le limit _
  · have key : items.length ≤ ((items.length + limit - 1) / limit) * limit := by
      have h : items.length ≤ limit • (items.length ⌈/⌉ limit) :=
        le_smul_ceilDiv hl
      rw [smul_eq_mul, Nat.ceilDiv_eq_add_pred_div, Nat.mul_comm] at h
      exact h
    exact flatten_range_take_drop limit ((items.length + limit - 1) / limit)
      items key

/-- Witness: three items, page 2, limit 2. -/
theorem generatePaginationData_spec_witness :
    (1 ≤ 2 ∧ 1 ≤ 2)
    ∧ (generatePaginationData ([10, 20, 30] : List Nat) 2 2).pagination.totalPages
        = ([10, 20, 30] : List Nat).length ⌈/⌉ 2
    ∧ (generatePaginationData ([10, 20, 30] : List Nat) 2 2).data
        = (([10, 20, 30] : List Nat).drop ((2 - 1) * 2)).take
            (2 * 2 - (2 - 1) * 2) := by
  exact ⟨⟨by decide, by decide⟩,
    (generatePaginationData_spec ([10, 20, 30] : List Nat) 2 2
      (by decide) (by decide)).2.2.1,
    (generatePaginationData_spec ([10, 20, 30] : List Nat) 2 2
      (by decide) (by decide)).1⟩
